import Mathlib

/-!
Shallow embedding of the pico_i2c_slave repository:
  * `src/i2c_slave/i2c_slave.c` — per-core slave context, interrupt dispatcher,
    init/deinit;
  * `src/example_mem_wire/Wire.cpp` / `Wire.h` — the TwoWire byte-buffer façade.

Machine integers are modelled as `Nat`/`Int`; the fixed 32-byte buffer is the
list of its valid bytes (`buf` with `buf.length` playing the role of `bufLen_`).
External blocking hardware calls (`i2c_write_blocking`, `i2c_read_blocking`)
are modelled by their integer result (and, for reads, the deposited bytes),
passed in as parameters.
-/

namespace PicoI2CSlave

/-- Protocol events raised by the dispatcher (`i2c_slave_event_t`). -/
inductive I2CSlaveEvent where
  | receive
  | request
  | finish
  deriving DecidableEq, Repr

/-- Per-core slave context (`i2c_slave_t`): the bound instance (`i2c`, `none`
meaning NULL), whether a handler is stored, and the transfer flag. -/
structure I2cSlave where
  i2c : Option Nat
  handler : Bool
  transfer_in_progress : Bool
  deriving DecidableEq, Repr

/-- `i2c_slave_init`: stores the instance and the handler; the
`transfer_in_progress` flag is not touched. -/
def i2c_slave_init (s : I2cSlave) (inst : Nat) : I2cSlave :=
  { i2c := some inst, handler := true, transfer_in_progress := s.transfer_in_progress }

/-- `i2c_slave_deinit`: `hard_assert_if(I2C, i2c == NULL)` fires when the
context is unbound (modelled as `none`); otherwise the stored instance,
handler and flag are cleared. -/
def i2c_slave_deinit (s : I2cSlave) : Option I2cSlave :=
  if s.i2c = none then
    none
  else
    some { i2c := none, handler := false, transfer_in_progress := false }

/-- The five interrupt-status bits read and dispatched by
`i2c_slave_irq_handler`. -/
structure IntrStat where
  tx_abrt : Bool
  start_det : Bool
  stop_det : Bool
  rx_full : Bool
  rd_req : Bool
  deriving DecidableEq, Repr

/-- `finish_transfer`: raise `finish` and clear the flag when a transfer is in
progress, otherwise a no-op.  Returns the new flag and the events raised. -/
def finish_transfer (tip : Bool) : Bool × List I2CSlaveEvent :=
  if tip then (false, [I2CSlaveEvent.finish]) else (tip, [])

/-- One invocation of `i2c_slave_irq_handler`, abstracted over the handler:
given the status bits and the prior `transfer_in_progress` flag, returns the
final flag and the ordered list of events raised to the handler. -/
def i2c_slave_irq_handler (st : IntrStat) (tip : Bool) : Bool × List I2CSlaveEvent :=
  if st = { tx_abrt := false, start_det := false, stop_det := false,
            rx_full := false, rd_req := false } then
    (tip, [])
  else
    let s1 := if st.tx_abrt then finish_transfer tip else (tip, [])
    let s2 := if st.start_det then
        let f := finish_transfer s1.1
        (f.1, s1.2 ++ f.2)
      else s1
    let s3 := if st.stop_det then
        let f := finish_transfer s2.1
        (f.1, s2.2 ++ f.2)
      else s2
    let s4 := if st.rx_full then (true, s3.2 ++ [I2CSlaveEvent.receive]) else s3
    let s5 := if st.rd_req then (true, s4.2 ++ [I2CSlaveEvent.request]) else s4
    s5

/-! ## The TwoWire façade (`Wire.h` / `Wire.cpp`) -/

/-- `WIRE_BUFFER_LENGTH` (default 32). -/
def WIRE_BUFFER_LENGTH : Nat := 32

/-- `TwoWire::NO_ADDRESS = 255`. -/
def NO_ADDRESS : Nat := 255

/-- `TwoWire::Mode`. -/
inductive Mode where
  | Unassigned
  | Master
  | Slave
  deriving DecidableEq, Repr

/-- The TwoWire state: registered handlers are tracked by presence
(`true` = non-null), the byte buffer by its valid bytes (`buf.length` is
`bufLen_`). -/
structure TwoWire where
  receiveHandler : Bool
  requestHandler : Bool
  mode : Mode
  txAddress : Nat
  buf : List Nat
  bufPos : Nat
  deriving DecidableEq, Repr

/-- Invocations of the user callbacks made by `TwoWire::handleEvent`. -/
inductive WireCallback where
  | onReceive (count : Nat)
  | onRequest
  deriving DecidableEq, Repr

namespace TwoWire

/-- `TwoWire::begin()` (master init).  Second component records whether
`i2c_slave_deinit` was called (the `mode_ != Unassigned` branch). -/
def begin (w : TwoWire) : TwoWire × Bool :=
  ({ w with mode := Mode.Master, buf := [], bufPos := 0 },
   decide (w.mode ≠ Mode.Unassigned))

/-- `TwoWire::begin(selfAddress)` (slave init).  Second component records
whether `i2c_slave_deinit` was called. -/
def beginSlave (w : TwoWire) : TwoWire × Bool :=
  ({ w with mode := Mode.Slave, buf := [], bufPos := 0 },
   decide (w.mode ≠ Mode.Unassigned))

/-- `TwoWire::beginTransmission(address)`. -/
def beginTransmission (w : TwoWire) (address : Nat) : TwoWire :=
  { w with txAddress := address, buf := [], bufPos := 0 }

/-- `TwoWire::endTransmission(sendStop)`.  `result` is the return of the
external `i2c_write_blocking` call.  Mirrors the source statement order:
`txAddress_` and `bufLen_` are reset BEFORE `result` is compared against
`bufLen_`. -/
def endTransmission (w : TwoWire) (result : Int) : TwoWire × Nat :=
  let w1 := { w with txAddress := NO_ADDRESS, buf := [] }
  if result < 0 then (w1, 4)
  else if result < (w1.buf.length : Int) then (w1, 3)
  else (w1, 0)

/-- `TwoWire::requestFrom(address, count, sendStop)`.  `readB` models the
external `i2c_read_blocking`: applied to the (clamped) requested length, it
yields the integer result and the bytes it deposited in the buffer. -/
def requestFrom (w : TwoWire) (count : Nat) (readB : Nat → Int × List Nat) :
    TwoWire × Nat :=
  let count2 := min count WIRE_BUFFER_LENGTH
  let r := readB count2
  let result2 : Int := if r.1 < 0 then 0 else r.1
  ({ w with buf := r.2.take result2.toNat, bufPos := 0 }, result2.toNat)

/-- `TwoWire::write(uint8_t)`.  In master mode appends unless the buffer is
full; in slave mode the byte goes to the hardware Tx FIFO and the buffer
state is untouched. -/
def write (w : TwoWire) (value : Nat) : TwoWire × Nat :=
  if w.mode = Mode.Master then
    if w.buf.length = WIRE_BUFFER_LENGTH then (w, 0)
    else ({ w with buf := w.buf ++ [value] }, 1)
  else
    (w, 1)

/-- `TwoWire::write(const uint8_t *, size_t)`.  In master mode the size is
clamped to the remaining capacity and that many bytes are appended; in slave
mode all bytes go to the hardware Tx FIFO. -/
def writeBuf (w : TwoWire) (data : List Nat) : TwoWire × Nat :=
  if w.mode = Mode.Master then
    let size := min data.length (WIRE_BUFFER_LENGTH - w.buf.length)
    ({ w with buf := w.buf ++ data.take size }, size)
  else
    (w, data.length)

/-- `TwoWire::available()`. -/
def available (w : TwoWire) : Nat :=
  w.buf.length - w.bufPos

/-- `TwoWire::peek()`. -/
def peek (w : TwoWire) : Int :=
  if w.bufPos < w.buf.length then (w.buf.getD w.bufPos 0 : Nat) else -1

/-- `TwoWire::read()`. -/
def read (w : TwoWire) : TwoWire × Int :=
  if w.bufPos < w.buf.length then
    ({ w with bufPos := w.bufPos + 1 }, (w.buf.getD w.bufPos 0 : Nat))
  else
    (w, -1)

/-- `TwoWire::handleEvent`: the slave event translation.  `fifo` is the list
of bytes available in the hardware Rx FIFO at entry (drained on `receive`).
Returns the new state and the user callbacks invoked, in order. -/
def handleEvent (w : TwoWire) (event : I2CSlaveEvent) (fifo : List Nat) :
    TwoWire × List WireCallback :=
  match event with
  | I2CSlaveEvent.receive =>
      ({ w with buf := (w.buf ++ fifo).take WIRE_BUFFER_LENGTH }, [])
  | I2CSlaveEvent.request =>
      (w, if w.requestHandler then [WireCallback.onRequest] else [])
  | I2CSlaveEvent.finish =>
      if 0 < w.buf.length then
        ({ w with buf := [], bufPos := 0 },
         if w.receiveHandler then [WireCallback.onReceive w.buf.length] else [])
      else
        (w, [])

/-- `n` successive calls to `read()`, collecting the returned values. -/
def readN : TwoWire → Nat → TwoWire × List Int
  | w, 0 => (w, [])
  | w, n + 1 =>
      let r := read w
      let rest := readN r.1 n
      (rest.1, r.2 :: rest.2)

end TwoWire

/-- The TransferBuffer state invariant of the spec:
`readPosition ≤ length ≤ capacity`, and a non-sentinel `txAddress` only in
master mode. -/
def Inv (w : TwoWire) : Prop :=
  w.bufPos ≤ w.buf.length ∧ w.buf.length ≤ WIRE_BUFFER_LENGTH ∧
    (w.txAddress ≠ NO_ADDRESS → w.mode = Mode.Master)

instance (w : TwoWire) : Decidable (Inv w) := by
  unfold Inv
  infer_instance

/-! ## Theorems -/

/-- Claim C1 (code bug): `endTransmission` reports success (0) on a partial
write.  With two bytes buffered and the bulk write returning 1 (one byte
transferred, then NACK), the source resets `bufLen_` to 0 before comparing
`result < bufLen_`, so the NACK branch (return 3) is unreachable and the
partial transfer is reported as success, contradicting the documented return
contract of `Wire.h`. -/
theorem c1_endTransmission_short_write_reported_success :
    (TwoWire.endTransmission
      { receiveHandler := false, requestHandler := false, mode := Mode.Master,
        txAddress := 23, buf := [5, 65], bufPos := 0 } 1).2 = 0 ∧
    (1 : Int) < ([5, 65] : List Nat).length ∧
    (TwoWire.endTransmission
      { receiveHandler := false, requestHandler := false, mode := Mode.Master,
        txAddress := 23, buf := [5, 65], bufPos := 0 } 1).2 ≠ 3 := by
  refine ⟨rfl, by decide, by decide⟩

/-- Claim C2: in one invocation of the interrupt dispatcher, `finish` is
raised at most once, and only if `transfer_in_progress` was true at entry
(count is 0 whenever the flag was false). -/
theorem c2_finish_at_most_once (st : IntrStat) (tip : Bool) :
    ((i2c_slave_irq_handler st tip).2.count I2CSlaveEvent.finish) ≤
      (if tip then 1 else 0) := by
  obtain ⟨a, b, c, d, e⟩ := st
  cases a <;> cases b <;> cases c <;> cases d <;> cases e <;> cases tip <;> decide

/-- Claim C9: `i2c_slave_deinit` on an unbound context fails the fatal
assertion, and after a bind → unbind sequence the context is fully cleared
(instance, handler, flag), so a second unbind fails. -/
theorem c9_unbind_twice_fails :
    (∀ h t : Bool, i2c_slave_deinit { i2c := none, handler := h, transfer_in_progress := t }
        = none) ∧
    ∀ (s : I2cSlave) (inst : Nat),
      i2c_slave_deinit (i2c_slave_init s inst)
          = some { i2c := none, handler := false, transfer_in_progress := false } ∧
      (i2c_slave_deinit (i2c_slave_init s inst)).bind i2c_slave_deinit = none := by
  constructor
  · intro h t
    simp [i2c_slave_deinit]
  · intro s inst
    refine ⟨by simp [i2c_slave_init, i2c_slave_deinit], ?_⟩
    simp [i2c_slave_init, i2c_slave_deinit]

/-- A sample slave-mode state used by witnesses. -/
def wSlaveEmpty : TwoWire :=
  { receiveHandler := false, requestHandler := false, mode := Mode.Slave,
    txAddress := 255, buf := [], bufPos := 0 }

/-- A sample master-mode state with an open transmission and two buffered
bytes, used by witnesses. -/
def wMasterTx : TwoWire :=
  { receiveHandler := false, requestHandler := false, mode := Mode.Master,
    txAddress := 23, buf := [1, 2], bufPos := 0 }

/-- A sample master-mode state with no open transmission, used by
witnesses. -/
def wMasterIdle : TwoWire :=
  { receiveHandler := false, requestHandler := false, mode := Mode.Master,
    txAddress := 255, buf := [], bufPos := 0 }

/-- Claim C3 counterexample: the claim says a port already in Master mode is
not unbound by `begin()`, but the source unbinds whenever
`mode_ != Unassigned`, so `begin()` on a Master-mode port does call
`i2c_slave_deinit`. -/
theorem c3_counterexample_master_also_unbinds :
    (TwoWire.begin
      { receiveHandler := false, requestHandler := false, mode := Mode.Master,
        txAddress := 255, buf := [], bufPos := 0 }).2 = true := by
  decide

/-- Claim C3 (amended): `begin()` unbinds the slave context exactly when the
port was previously assigned (Master or Slave mode) — only a previously
Unassigned port is not unbound — and in every case sets mode to Master and
resets the buffer length and read cursor to 0, under the precondition that no
transmission is in progress. -/
theorem c3_begin_unbinds_any_assigned_port (w : TwoWire)
    (h : w.txAddress = NO_ADDRESS) :
    ((TwoWire.begin w).2 = true ↔ w.mode ≠ Mode.Unassigned) ∧
    (TwoWire.begin w).1.mode = Mode.Master ∧
    (TwoWire.begin w).1.buf = [] ∧
    (TwoWire.begin w).1.bufPos = 0 := by
  refine ⟨?_, rfl, rfl, rfl⟩
  simp [TwoWire.begin]

/-- Witness for C3 at a concrete slave-mode state. -/
theorem c3_begin_witness :
    wSlaveEmpty.txAddress = NO_ADDRESS ∧
    (((TwoWire.begin wSlaveEmpty).2 = true ↔ wSlaveEmpty.mode ≠ Mode.Unassigned) ∧
     (TwoWire.begin wSlaveEmpty).1.mode = Mode.Master ∧
     (TwoWire.begin wSlaveEmpty).1.buf = [] ∧
     (TwoWire.begin wSlaveEmpty).1.bufPos = 0) :=
  ⟨by decide, c3_begin_unbinds_any_assigned_port wSlaveEmpty (by decide)⟩

/-- Claim C4: master-mode `write` never grows the buffer past capacity; the
accepted count is `min(requested, capacity - length)`, the accepted bytes are
appended in order, the rest are dropped; the single-byte `write` is the
`n = 1` case (0 when full, 1 otherwise). -/
theorem c4_write_clamps_to_capacity (w : TwoWire) (data : List Nat) (v : Nat)
    (hm : w.mode = Mode.Master) (ht : w.txAddress ≠ NO_ADDRESS)
    (hlen : w.buf.length ≤ WIRE_BUFFER_LENGTH) :
    (TwoWire.writeBuf w data).2
        = min data.length (WIRE_BUFFER_LENGTH - w.buf.length) ∧
    (TwoWire.writeBuf w data).1.buf
        = w.buf ++ data.take (min data.length (WIRE_BUFFER_LENGTH - w.buf.length)) ∧
    (TwoWire.writeBuf w data).1.buf.length ≤ WIRE_BUFFER_LENGTH ∧
    (TwoWire.write w v).2 = min 1 (WIRE_BUFFER_LENGTH - w.buf.length) ∧
    ((TwoWire.write w v).2 = 0 ↔ w.buf.length = WIRE_BUFFER_LENGTH) := by
  refine ⟨by simp [TwoWire.writeBuf, hm], by simp [TwoWire.writeBuf, hm], ?_, ?_, ?_⟩
  · simp [TwoWire.writeBuf, hm, List.length_take]
    omega
  · by_cases hfull : w.buf.length = WIRE_BUFFER_LENGTH
    · simp [TwoWire.write, hm, hfull]
    · simp [TwoWire.write, hm, hfull]
      omega
  · by_cases hfull : w.buf.length = WIRE_BUFFER_LENGTH
    · simp [TwoWire.write, hm, hfull]
    · simp [TwoWire.write, hm, hfull]

/-- Witness for C4 at a concrete state: two bytes buffered, three offered. -/
theorem c4_write_witness :
    wMasterTx.mode = Mode.Master ∧ wMasterTx.txAddress ≠ NO_ADDRESS ∧
    wMasterTx.buf.length ≤ WIRE_BUFFER_LENGTH ∧
    ((TwoWire.writeBuf wMasterTx [3, 4, 5]).2
        = min ([3, 4, 5] : List Nat).length (WIRE_BUFFER_LENGTH - wMasterTx.buf.length) ∧
     (TwoWire.writeBuf wMasterTx [3, 4, 5]).1.buf
        = wMasterTx.buf ++ ([3, 4, 5] : List Nat).take
            (min ([3, 4, 5] : List Nat).length (WIRE_BUFFER_LENGTH - wMasterTx.buf.length)) ∧
     (TwoWire.writeBuf wMasterTx [3, 4, 5]).1.buf.length ≤ WIRE_BUFFER_LENGTH ∧
     (TwoWire.write wMasterTx 9).2 = min 1 (WIRE_BUFFER_LENGTH - wMasterTx.buf.length) ∧
     ((TwoWire.write wMasterTx 9).2 = 0 ↔ wMasterTx.buf.length = WIRE_BUFFER_LENGTH)) :=
  ⟨by decide, by decide, by decide,
   c4_write_clamps_to_capacity wMasterTx [3, 4, 5] 9 (by decide) (by decide) (by decide)⟩

/-- Claim C5: `requestFrom` clamps the requested count to capacity, treats a
negative bulk-read result as zero bytes read, sets the buffer length to the
number of bytes actually read, resets the cursor to 0, and returns that
number; a request of 0 bytes yields 0 with an empty buffer. -/
theorem c5_requestFrom_clamps_and_degrades (w : TwoWire) (count : Nat)
    (readB : Nat → Int × List Nat)
    (hm : w.mode = Mode.Master) (ht : w.txAddress = NO_ADDRESS)
    (hres : (readB (min count WIRE_BUFFER_LENGTH)).1
        ≤ (min count WIRE_BUFFER_LENGTH : Nat))
    (hdata : (readB (min count WIRE_BUFFER_LENGTH)).2.length
        = (readB (min count WIRE_BUFFER_LENGTH)).1.toNat) :
    (TwoWire.requestFrom w count readB).2 ≤ min count WIRE_BUFFER_LENGTH ∧
    ((readB (min count WIRE_BUFFER_LENGTH)).1 < 0 →
      (TwoWire.requestFrom w count readB).2 = 0) ∧
    (TwoWire.requestFrom w count readB).1.buf.length
        = (TwoWire.requestFrom w count readB).2 ∧
    (TwoWire.requestFrom w count readB).1.bufPos = 0 ∧
    (count = 0 → (TwoWire.requestFrom w count readB).2 = 0 ∧
      (TwoWire.requestFrom w count readB).1.buf = []) := by
  by_cases hneg : (readB (min count WIRE_BUFFER_LENGTH)).1 < 0
  · refine ⟨?_, ?_, ?_, ?_, ?_⟩ <;>
      simp [TwoWire.requestFrom, hneg]
  · have hres2 : (readB (min count WIRE_BUFFER_LENGTH)).1.toNat
        ≤ min count WIRE_BUFFER_LENGTH := Int.toNat_le.mpr hres
    refine ⟨?_, ?_, ?_, ?_, ?_⟩
    · simpa [TwoWire.requestFrom, hneg] using hres2
    · intro hc
      exact absurd hc hneg
    · simp [TwoWire.requestFrom, hneg, List.length_take, hdata]
    · simp [TwoWire.requestFrom]
    · intro hc
      subst hc
      rw [Nat.zero_min] at hres hneg
      have h1 : (readB 0).1 = 0 :=
        le_antisymm (by exact_mod_cast hres) (not_lt.mp hneg)
      constructor
      · simp [TwoWire.requestFrom, Nat.zero_min, h1]
      · simp [TwoWire.requestFrom, Nat.zero_min, h1]

/-- Witness for C5 at a concrete state: a read of 4 bytes that returns 3. -/
theorem c5_requestFrom_witness :
    wMasterIdle.mode = Mode.Master ∧ wMasterIdle.txAddress = NO_ADDRESS ∧
    ((fun _ => ((3 : Int), [7, 8, 9])) (min 4 WIRE_BUFFER_LENGTH)).1
        ≤ (min 4 WIRE_BUFFER_LENGTH : Nat) ∧
    ((fun _ => ((3 : Int), [7, 8, 9])) (min 4 WIRE_BUFFER_LENGTH)).2.length
        = ((fun _ => ((3 : Int), [7, 8, 9])) (min 4 WIRE_BUFFER_LENGTH)).1.toNat ∧
    ((TwoWire.requestFrom wMasterIdle 4 (fun _ => ((3 : Int), [7, 8, 9]))).2
        ≤ min 4 WIRE_BUFFER_LENGTH ∧
     (((fun _ => ((3 : Int), [7, 8, 9])) (min 4 WIRE_BUFFER_LENGTH) :
          Int × List Nat).1 < 0 →
       (TwoWire.requestFrom wMasterIdle 4 (fun _ => ((3 : Int), [7, 8, 9]))).2 = 0) ∧
     (TwoWire.requestFrom wMasterIdle 4 (fun _ => ((3 : Int), [7, 8, 9]))).1.buf.length
        = (TwoWire.requestFrom wMasterIdle 4 (fun _ => ((3 : Int), [7, 8, 9]))).2 ∧
     (TwoWire.requestFrom wMasterIdle 4 (fun _ => ((3 : Int), [7, 8, 9]))).1.bufPos = 0 ∧
     ((4 : Nat) = 0 →
       (TwoWire.requestFrom wMasterIdle 4 (fun _ => ((3 : Int), [7, 8, 9]))).2 = 0 ∧
       (TwoWire.requestFrom wMasterIdle 4 (fun _ => ((3 : Int), [7, 8, 9]))).1.buf = [])) :=
  ⟨by decide, by decide, by decide, by decide,
   c5_requestFrom_clamps_and_degrades wMasterIdle 4 (fun _ => ((3 : Int), [7, 8, 9]))
     (by decide) (by decide) (by decide) (by decide)⟩

/-- A sample slave-mode state with a registered receive handler and three
buffered bytes, used by witnesses. -/
def wSlaveFull : TwoWire :=
  { receiveHandler := true, requestHandler := false, mode := Mode.Slave,
    txAddress := 255, buf := [4, 5, 6], bufPos := 0 }

/-- A sample slave-mode state with two buffered bytes and no registered
receive handler, used by witnesses. -/
def wSlaveNoHandler : TwoWire :=
  { receiveHandler := false, requestHandler := false, mode := Mode.Slave,
    txAddress := 255, buf := [4, 5], bufPos := 0 }

/-- Claim C8: with a receive handler registered, the Finish translation
invokes it with the current byte count and then clears length and cursor
exactly when at least one byte is buffered; with nothing buffered it is a
no-op. -/
theorem c8_finish_invokes_and_clears (w : TwoWire)
    (hm : w.mode = Mode.Slave) (hp : w.bufPos = 0) (hh : w.receiveHandler = true) :
    (0 < w.buf.length →
      (TwoWire.handleEvent w I2CSlaveEvent.finish []).2
          = [WireCallback.onReceive w.buf.length] ∧
      (TwoWire.handleEvent w I2CSlaveEvent.finish []).1.buf = [] ∧
      (TwoWire.handleEvent w I2CSlaveEvent.finish []).1.bufPos = 0) ∧
    (w.buf.length = 0 → TwoWire.handleEvent w I2CSlaveEvent.finish [] = (w, [])) := by
  constructor
  · intro hl
    simp [TwoWire.handleEvent, hl, hh]
  · intro hl
    simp [TwoWire.handleEvent, hl]

/-- Witness for C8 at a concrete slave state with three buffered bytes. -/
theorem c8_finish_witness :
    wSlaveFull.mode = Mode.Slave ∧
    wSlaveFull.bufPos = 0 ∧
    wSlaveFull.receiveHandler = true ∧
    ((0 < wSlaveFull.buf.length →
      (TwoWire.handleEvent wSlaveFull I2CSlaveEvent.finish []).2
          = [WireCallback.onReceive wSlaveFull.buf.length] ∧
      (TwoWire.handleEvent wSlaveFull I2CSlaveEvent.finish []).1.buf = [] ∧
      (TwoWire.handleEvent wSlaveFull I2CSlaveEvent.finish []).1.bufPos = 0) ∧
     (wSlaveFull.buf.length = 0 →
       TwoWire.handleEvent wSlaveFull I2CSlaveEvent.finish [] = (wSlaveFull, []))) :=
  ⟨by decide, by decide, by decide,
   c8_finish_invokes_and_clears wSlaveFull (by decide) (by decide) (by decide)⟩

/-- Claim C10: on Finish with bytes buffered but no receive handler
registered, the buffered bytes are silently discarded — length and cursor are
still reset to 0, no callback is invoked, and nothing else changes. -/
theorem c10_finish_discards_without_handler (w : TwoWire)
    (hh : w.receiveHandler = false) (hl : 0 < w.buf.length) :
    (TwoWire.handleEvent w I2CSlaveEvent.finish []).2 = [] ∧
    (TwoWire.handleEvent w I2CSlaveEvent.finish []).1
        = { w with buf := [], bufPos := 0 } := by
  simp [TwoWire.handleEvent, hl, hh]

/-- Witness for C10 at a concrete slave state with two buffered bytes and a
null receive handler. -/
theorem c10_finish_witness :
    wSlaveNoHandler.receiveHandler = false ∧
    0 < wSlaveNoHandler.buf.length ∧
    ((TwoWire.handleEvent wSlaveNoHandler I2CSlaveEvent.finish []).2 = [] ∧
     (TwoWire.handleEvent wSlaveNoHandler I2CSlaveEvent.finish []).1
        = { wSlaveNoHandler with buf := [], bufPos := 0 }) :=
  ⟨by decide, by decide,
   c10_finish_discards_without_handler wSlaveNoHandler (by decide) (by decide)⟩

/-- Draining lemma for `readN`: while the cursor stays within the valid
bytes, `n` reads advance the cursor by `n` and return the bytes in order. -/
theorem readN_drain (n : Nat) (w : TwoWire) (h : w.bufPos + n ≤ w.buf.length) :
    TwoWire.readN w n
      = ({ w with bufPos := w.bufPos + n },
         ((w.buf.drop w.bufPos).take n).map (fun b => (b : Int))) := by
  induction n generalizing w with
  | zero => simp [TwoWire.readN]
  | succ n ih =>
      have hlt : w.bufPos < w.buf.length := by omega
      have hr : TwoWire.read w = ({ w with bufPos := w.bufPos + 1 },
          ((w.buf.getD w.bufPos 0 : Nat) : Int)) := by
        simp [TwoWire.read, hlt]
      have h2 : ({ w with bufPos := w.bufPos + 1 } : TwoWire).bufPos + n
          ≤ ({ w with bufPos := w.bufPos + 1 } : TwoWire).buf.length := by
        show w.bufPos + 1 + n ≤ w.buf.length
        omega
      have hdrop : w.buf.drop w.bufPos
          = w.buf.getD w.bufPos 0 :: w.buf.drop (w.bufPos + 1) := by
        rw [List.getD_eq_getElem _ _ hlt]
        exact List.drop_eq_getElem_cons hlt
      simp only [TwoWire.readN]
      rw [hr, ih _ h2, hdrop]
      simp [List.take_succ_cons, Prod.mk.injEq, TwoWire.mk.injEq]
      omega

/-- Claim C6: after a successful `requestFrom` that read `count` bytes, the
next `count` calls to `read()` return exactly those bytes in order, the
cursor then sits at the end of the buffer, and a further `read()` returns the
sentinel -1 leaving the state unchanged (so every further call keeps
returning -1 until another master-mode call resets the buffer). -/
theorem c6_requestFrom_then_reads (w : TwoWire) (count : Nat) (data : List Nat)
    (readB : Nat → Int × List Nat)
    (hm : w.mode = Mode.Master) (hc : count ≤ WIRE_BUFFER_LENGTH)
    (hd : data.length = count)
    (hread : readB (min count WIRE_BUFFER_LENGTH) = ((count : Int), data)) :
    (TwoWire.readN (TwoWire.requestFrom w count readB).1 count).2
        = data.map (fun b => (b : Int)) ∧
    (TwoWire.readN (TwoWire.requestFrom w count readB).1 count).1.bufPos
        = (TwoWire.readN (TwoWire.requestFrom w count readB).1 count).1.buf.length ∧
    TwoWire.read (TwoWire.readN (TwoWire.requestFrom w count readB).1 count).1
        = ((TwoWire.readN (TwoWire.requestFrom w count readB).1 count).1, -1) := by
  have hmin : min count WIRE_BUFFER_LENGTH = count := Nat.min_eq_left hc
  have hpos : ¬((count : Int) < 0) := not_lt.mpr (Int.natCast_nonneg count)
  rw [hmin] at hread
  have hw1 : (TwoWire.requestFrom w count readB).1
      = { w with buf := data, bufPos := 0 } := by
    simp only [TwoWire.requestFrom, hmin, hread, if_neg hpos, Int.toNat_natCast]
    rw [← hd, List.take_length]
  have hdrain := readN_drain count { w with buf := data, bufPos := 0 }
    (by show 0 + count ≤ data.length; omega)
  rw [hw1, hdrain]
  refine ⟨by simp [← hd], by simp [← hd], ?_⟩
  simp [TwoWire.read, ← hd]

/-- Witness for C6 at a concrete state: a successful 3-byte read. -/
theorem c6_requestFrom_witness :
    wMasterIdle.mode = Mode.Master ∧ (3 : Nat) ≤ WIRE_BUFFER_LENGTH ∧
    ([7, 8, 9] : List Nat).length = 3 ∧
    (fun _ => ((3 : Int), [7, 8, 9])) (min 3 WIRE_BUFFER_LENGTH)
        = ((3 : Int), ([7, 8, 9] : List Nat)) ∧
    ((TwoWire.readN (TwoWire.requestFrom wMasterIdle 3
          (fun _ => ((3 : Int), [7, 8, 9]))).1 3).2
        = ([7, 8, 9] : List Nat).map (fun b => (b : Int)) ∧
     (TwoWire.readN (TwoWire.requestFrom wMasterIdle 3
          (fun _ => ((3 : Int), [7, 8, 9]))).1 3).1.bufPos
        = (TwoWire.readN (TwoWire.requestFrom wMasterIdle 3
          (fun _ => ((3 : Int), [7, 8, 9]))).1 3).1.buf.length ∧
     TwoWire.read (TwoWire.readN (TwoWire.requestFrom wMasterIdle 3
          (fun _ => ((3 : Int), [7, 8, 9]))).1 3).1
        = ((TwoWire.readN (TwoWire.requestFrom wMasterIdle 3
          (fun _ => ((3 : Int), [7, 8, 9]))).1 3).1, -1)) :=
  ⟨by decide, by decide, by decide, by decide,
   c6_requestFrom_then_reads wMasterIdle 3 [7, 8, 9]
     (fun _ => ((3 : Int), [7, 8, 9])) (by decide) (by decide) (by decide) (by decide)⟩

/-- One application-visible operation on the TwoWire state, with its
arguments and the outcome of any external blocking call.  `peekOp` and
`availableOp` stand for the `const` observers, which cannot mutate the
state. -/
inductive WireOp where
  | initializeMaster
  | initializeSlave
  | beginTransmissionOp (address : Nat)
  | endTransmissionOp (result : Int)
  | requestFromOp (count : Nat) (readB : Nat → Int × List Nat)
  | writeOp (value : Nat)
  | writeBufOp (data : List Nat)
  | readOp
  | peekOp
  | availableOp
  | handleEventOp (event : I2CSlaveEvent) (fifo : List Nat)

/-- The state after one operation (the observers leave it unchanged, as the
source functions are `const`). -/
def applyOp (w : TwoWire) : WireOp → TwoWire
  | WireOp.initializeMaster => (TwoWire.begin w).1
  | WireOp.initializeSlave => (TwoWire.beginSlave w).1
  | WireOp.beginTransmissionOp a => TwoWire.beginTransmission w a
  | WireOp.endTransmissionOp r => (TwoWire.endTransmission w r).1
  | WireOp.requestFromOp count readB => (TwoWire.requestFrom w count readB).1
  | WireOp.writeOp v => (TwoWire.write w v).1
  | WireOp.writeBufOp data => (TwoWire.writeBuf w data).1
  | WireOp.readOp => (TwoWire.read w).1
  | WireOp.peekOp => w
  | WireOp.availableOp => w
  | WireOp.handleEventOp ev fifo => (TwoWire.handleEvent w ev fifo).1

/-- The precondition of each operation: the source's `assert`s, plus, for
`requestFrom`, the contract of the external bulk read (its result never
exceeds the requested length). -/
def opPre (w : TwoWire) : WireOp → Prop
  | WireOp.initializeMaster => w.txAddress = NO_ADDRESS
  | WireOp.initializeSlave => w.txAddress = NO_ADDRESS
  | WireOp.beginTransmissionOp a =>
      w.mode = Mode.Master ∧ w.txAddress = NO_ADDRESS ∧ a ≠ NO_ADDRESS
  | WireOp.endTransmissionOp _ =>
      w.mode = Mode.Master ∧ w.txAddress ≠ NO_ADDRESS ∧ w.bufPos = 0
  | WireOp.requestFromOp count readB =>
      w.mode = Mode.Master ∧ w.txAddress = NO_ADDRESS ∧
        (readB (min count WIRE_BUFFER_LENGTH)).1 ≤ (min count WIRE_BUFFER_LENGTH : Nat)
  | WireOp.writeOp _ =>
      w.mode ≠ Mode.Unassigned ∧ (w.mode = Mode.Master → w.txAddress ≠ NO_ADDRESS)
  | WireOp.writeBufOp _ =>
      w.mode ≠ Mode.Unassigned ∧ (w.mode = Mode.Master → w.txAddress ≠ NO_ADDRESS)
  | WireOp.readOp => w.mode ≠ Mode.Unassigned ∧ w.txAddress = NO_ADDRESS
  | WireOp.peekOp => w.mode ≠ Mode.Unassigned ∧ w.txAddress = NO_ADDRESS
  | WireOp.availableOp => w.mode ≠ Mode.Unassigned ∧ w.txAddress = NO_ADDRESS
  | WireOp.handleEventOp ev _ =>
      w.mode = Mode.Slave ∧ w.bufPos = 0 ∧
        (ev = I2CSlaveEvent.request → w.buf = [])

instance (w : TwoWire) (op : WireOp) : Decidable (opPre w op) := by
  cases op <;> (unfold opPre; infer_instance)

/-- Claim C7: every TransferBuffer operation, run under its source
preconditions (the `assert`s, plus the bulk-read contract for
`requestFrom`), preserves the invariant `readPosition ≤ length ≤ capacity`
together with "`transmitAddress` non-sentinel only in Master mode".  The
observers `peek`/`available` are `const` in the source and leave the state
unchanged by definition. -/
theorem c7_ops_preserve_invariant (w : TwoWire) (op : WireOp)
    (hw : Inv w) (hpre : opPre w op) : Inv (applyOp w op) := by
  obtain ⟨h1, h2, h3⟩ := hw
  cases op with
  | initializeMaster =>
      exact ⟨Nat.le_refl 0, Nat.zero_le _, fun _ => rfl⟩
  | initializeSlave =>
      simp only [opPre] at hpre
      exact ⟨Nat.le_refl 0, Nat.zero_le _, fun hne => absurd hpre hne⟩
  | beginTransmissionOp a =>
      obtain ⟨hm, -, -⟩ := hpre
      exact ⟨Nat.le_refl 0, Nat.zero_le _, fun _ => hm⟩
  | endTransmissionOp r =>
      obtain ⟨-, -, hp⟩ := hpre
      have he : (TwoWire.endTransmission w r).1
          = { w with txAddress := NO_ADDRESS, buf := [] } := by
        by_cases hr : r < 0
        · simp [TwoWire.endTransmission, hr]
        · simp [TwoWire.endTransmission, hr]
      simp only [applyOp, he]
      exact ⟨Nat.le_of_eq hp, Nat.zero_le _, fun hcon => absurd rfl hcon⟩
  | requestFromOp count readB =>
      obtain ⟨-, -, hres⟩ := hpre
      have hres2 : (if (readB (min count WIRE_BUFFER_LENGTH)).1 < 0 then (0 : Int)
            else (readB (min count WIRE_BUFFER_LENGTH)).1).toNat
          ≤ min count WIRE_BUFFER_LENGTH := by
        by_cases hneg : (readB (min count WIRE_BUFFER_LENGTH)).1 < 0
        · simp [hneg]
        · simpa [hneg] using Int.toNat_le.mpr hres
      refine ⟨Nat.zero_le _, ?_, fun hne => h3 hne⟩
      show ((readB (min count WIRE_BUFFER_LENGTH)).2.take _).length ≤ WIRE_BUFFER_LENGTH
      rw [List.length_take]
      have hcap : min count WIRE_BUFFER_LENGTH ≤ WIRE_BUFFER_LENGTH :=
        Nat.min_le_right _ _
      omega
  | writeOp v =>
      by_cases hm : w.mode = Mode.Master
      · by_cases hfull : w.buf.length = WIRE_BUFFER_LENGTH
        · have hx : (TwoWire.write w v).1 = w := by simp [TwoWire.write, hm, hfull]
          simp only [applyOp, hx]
          exact ⟨h1, h2, h3⟩
        · have hx : (TwoWire.write w v).1 = { w with buf := w.buf ++ [v] } := by
            simp [TwoWire.write, hm, hfull]
          simp only [applyOp, hx]
          refine ⟨?_, ?_, fun hne => h3 hne⟩
          · show w.bufPos ≤ (w.buf ++ [v]).length
            rw [List.length_append]
            omega
          · show (w.buf ++ [v]).length ≤ WIRE_BUFFER_LENGTH
            rw [List.length_append]
            simp only [List.length_singleton]
            omega
      · have hx : (TwoWire.write w v).1 = w := by simp [TwoWire.write, hm]
        simp only [applyOp, hx]
        exact ⟨h1, h2, h3⟩
  | writeBufOp data =>
      by_cases hm : w.mode = Mode.Master
      · have hx : (TwoWire.writeBuf w data).1
            = { w with buf := w.buf
                ++ data.take (min data.length (WIRE_BUFFER_LENGTH - w.buf.length)) } := by
          simp [TwoWire.writeBuf, hm]
        simp only [applyOp, hx]
        refine ⟨?_, ?_, fun hne => h3 hne⟩
        · show w.bufPos ≤ (w.buf ++ _).length
          rw [List.length_append]
          omega
        · show (w.buf ++ _).length ≤ WIRE_BUFFER_LENGTH
          rw [List.length_append, List.length_take]
          omega
      · have hx : (TwoWire.writeBuf w data).1 = w := by simp [TwoWire.writeBuf, hm]
        simp only [applyOp, hx]
        exact ⟨h1, h2, h3⟩
  | readOp =>
      by_cases hlt : w.bufPos < w.buf.length
      · have hx : (TwoWire.read w).1 = { w with bufPos := w.bufPos + 1 } := by
          simp [TwoWire.read, hlt]
        simp only [applyOp, hx]
        exact ⟨Nat.succ_le_of_lt hlt, h2, h3⟩
      · have hx : (TwoWire.read w).1 = w := by simp [TwoWire.read, hlt]
        simp only [applyOp, hx]
        exact ⟨h1, h2, h3⟩
  | peekOp =>
      exact ⟨h1, h2, h3⟩
  | availableOp =>
      exact ⟨h1, h2, h3⟩
  | handleEventOp ev fifo =>
      obtain ⟨-, hp, -⟩ := hpre
      cases ev with
      | receive =>
          refine ⟨?_, ?_, fun hne => h3 hne⟩
          · show w.bufPos ≤ ((w.buf ++ fifo).take WIRE_BUFFER_LENGTH).length
            rw [List.length_take, List.length_append]
            omega
          · show ((w.buf ++ fifo).take WIRE_BUFFER_LENGTH).length ≤ WIRE_BUFFER_LENGTH
            rw [List.length_take]
            exact Nat.min_le_left _ _
      | request =>
          exact ⟨h1, h2, h3⟩
      | finish =>
          by_cases hl : 0 < w.buf.length
          · have hx : (TwoWire.handleEvent w I2CSlaveEvent.finish fifo).1
                = { w with buf := [], bufPos := 0 } := by
              simp [TwoWire.handleEvent, hl]
            simp only [applyOp, hx]
            exact ⟨Nat.le_refl 0, Nat.zero_le _, fun hne => h3 hne⟩
          · have hx : (TwoWire.handleEvent w I2CSlaveEvent.finish fifo).1 = w := by
              simp [TwoWire.handleEvent, hl]
            simp only [applyOp, hx]
            exact ⟨h1, h2, h3⟩

/-- Witness for C7 at a concrete state and operation (a `read()` in master
mode). -/
theorem c7_invariant_witness :
    Inv wMasterIdle ∧ opPre wMasterIdle WireOp.readOp ∧
      Inv (applyOp wMasterIdle WireOp.readOp) :=
  ⟨by decide, by decide,
   c7_ops_preserve_invariant wMasterIdle WireOp.readOp (by decide) (by decide)⟩

end PicoI2CSlave
